import Mathlib

/-!
Shallow embedding of the OLAP table sink core of this repository
(`be/src/exec/tablet_sink.h`, `be/src/runtime/tablets_channel.h`).
Pure inline functions and in-class initializers are translated directly
from the headers.  Method bodies that live outside the headers are
modelled from the specification; each such definition carries a doc
comment starting with `Modelled from the spec:`.
-/

namespace DorisSink

/-! ## 64-bit integer arithmetic

`int64_t` addition wraps modulo 2^64; `wrap64` maps an unbounded integer
to the signed 64-bit value with the same residue.  The literals below are
2^63 and 2^64. -/

def wrap64 (x : Int) : Int :=
  (x + 9223372036854775808) % 18446744073709551616 - 9223372036854775808

def inRange64 (x : Int) : Prop :=
  -9223372036854775808 ≤ x ∧ x < 9223372036854775808

instance (x : Int) : Decidable (inRange64 x) := by
  unfold inRange64
  exact instDecidableAnd

/-! ## AddBatchCounter (`tablet_sink.h`, lines 57-75) -/

/-- The counter of `add_batch` rpc of a single node: three `int64_t`
fields, all zero-initialized in the source. -/
structure AddBatchCounter where
  add_batch_execution_time_us : Int := 0
  add_batch_wait_lock_time_us : Int := 0
  add_batch_num : Int := 0
  deriving DecidableEq

/-- `operator+=`: adds the three fields componentwise as 64-bit integers
and returns the updated left-hand side. -/
def AddBatchCounter.addAssign (lhs rhs : AddBatchCounter) : AddBatchCounter :=
  { add_batch_execution_time_us :=
      wrap64 (lhs.add_batch_execution_time_us + rhs.add_batch_execution_time_us),
    add_batch_wait_lock_time_us :=
      wrap64 (lhs.add_batch_wait_lock_time_us + rhs.add_batch_wait_lock_time_us),
    add_batch_num := wrap64 (lhs.add_batch_num + rhs.add_batch_num) }

/-- `operator+`: `sum = lhs; sum += rhs; return sum;`. -/
def AddBatchCounter.add (lhs rhs : AddBatchCounter) : AddBatchCounter :=
  AddBatchCounter.addAssign lhs rhs

/-- A default-constructed counter: every field is 0. -/
def AddBatchCounter.zero : AddBatchCounter := {}

/-- The representation invariant of the C++ struct: every `int64_t`
field holds a value in the signed 64-bit range. -/
def AddBatchCounter.InRange (c : AddBatchCounter) : Prop :=
  inRange64 c.add_batch_execution_time_us ∧
  inRange64 c.add_batch_wait_lock_time_us ∧
  inRange64 c.add_batch_num

instance (c : AddBatchCounter) : Decidable c.InRange := by
  unfold AddBatchCounter.InRange
  exact instDecidableAnd

/-! ## TabletsChannelKey (`tablets_channel.h`, lines 35-49) -/

/-- Modelled from the spec: `UniqueId` (declared in `util/uid_util.h`,
which is not under src/) is the 128-bit load id; it is represented as two
64-bit halves and compared componentwise. -/
structure UniqueId where
  hi : Int
  lo : Int
  deriving DecidableEq

/-- Receiver-side key of a tablets channel: the load id together with the
index id (`tablets_channel.h`, lines 35-41). -/
structure TabletsChannelKey where
  id : UniqueId
  index_id : Int
  deriving DecidableEq

/-- `TabletsChannelKey::operator==`:
`return index_id == rhs.index_id && id == rhs.id;`. -/
def TabletsChannelKey.eq (k : TabletsChannelKey) (rhs : TabletsChannelKey) : Bool :=
  decide (k.index_id = rhs.index_id) && decide (k.id = rhs.id)

/-! ## NodeChannel (`tablet_sink.h`, lines 77-147) -/

/-- The scalar fields of `NodeChannel` together with their in-class
initializers (`tablet_sink.h`, lines 121-133).  `_rpc_timeout_ms` is
declared as `int _rpc_timeout_ms = 60000;` and is only overwritten later
by `init()` from config. -/
structure NodeChannelFields where
  index_id : Int := -1
  node_id : Int := -1
  schema_hash : Int := 0
  already_failed : Bool := false
  has_in_flight_packet : Bool := false
  rpc_timeout_ms : Int := 60000
  next_packet_seq : Int := 0

/-- The `NodeChannel` constructor stores its arguments; all remaining
fields keep their in-class initializers. -/
def NodeChannel.construct (index_id node_id schema_hash : Int) : NodeChannelFields :=
  { index_id := index_id, node_id := node_id, schema_hash := schema_hash }

/-- State of the send side of one `NodeChannel`: the next packet sequence
number and the trace of requests dispatched so far, each recorded as its
`(packet_seq, eos)` pair in dispatch order. -/
structure NodeChannelSendState where
  next_packet_seq : Nat
  sent_packets : List (Nat × Bool)

/-- Modelled from the spec: `NodeChannel::_send_cur_batch(eos)` (body not
under src/) builds a request carrying packet sequence `_next_packet_seq`
and the `eos` flag, dispatches it asynchronously, and increments
`_next_packet_seq`. -/
def NodeChannel.send_cur_batch (st : NodeChannelSendState) (eos : Bool) : NodeChannelSendState :=
  { next_packet_seq := st.next_packet_seq + 1,
    sent_packets := st.sent_packets ++ [(st.next_packet_seq, eos)] }

/-- A freshly constructed channel: `_next_packet_seq = 0`, nothing sent. -/
def NodeChannel.fresh : NodeChannelSendState :=
  { next_packet_seq := 0, sent_packets := [] }

/-- The channel after `n` full batches have been sent (each with
`eos = false`). -/
def NodeChannel.run_sends : Nat → NodeChannelSendState
  | 0 => NodeChannel.fresh
  | n + 1 => NodeChannel.send_cur_batch (NodeChannel.run_sends n) false

/-- A complete load on one channel: `n` full-batch sends followed by
`close`, which force-sends the remainder with `eos = true`. -/
def NodeChannel.run_load (n : Nat) : NodeChannelSendState :=
  NodeChannel.send_cur_batch (NodeChannel.run_sends n) true

/-! ## IndexChannel failure handling (`tablet_sink.h`, lines 149-200) -/

/-- The mutable failure state of one `IndexChannel`: the set of node ids
whose `NodeChannel` is marked failed (`_already_failed`), and
`_num_failed_channels`. -/
structure IndexChannelState where
  failed_nodes : List Int
  num_failed_channels : Nat

/-- Number of live (non-failed) replica channels of one tablet:
`replicas` is the tablet's entry of `_channels_by_tablet`, given by the
node ids of its replica `NodeChannel`s. -/
def IndexChannel.live_count (replicas : List Int) (failed : List Int) : Nat :=
  replicas.countP (fun n => decide (n ∉ failed))

/-- The strict-majority quorum: a tablet needs at least
`num_replicas / 2 + 1` live replicas (integer division). -/
def quorum_min (num_replicas : Nat) : Nat := num_replicas / 2 + 1

/-- Modelled from the spec: `IndexChannel::_handle_failed_node(channel)`
(body not under src/).  Under the index lock: if the channel is already
marked failed, return without re-marking.  Otherwise mark it failed,
increment `_num_failed_channels`, and for each tablet whose replica list
includes the channel recount its live replicas; return `true` (load
cannot succeed) exactly when some such tablet falls below strict
majority. -/
def IndexChannel.handle_failed_node (channels_by_tablet : List (List Int))
    (num_replicas : Nat) (st : IndexChannelState) (ch : Int) :
    IndexChannelState × Bool :=
  if ch ∈ st.failed_nodes then (st, false)
  else
    let st2 : IndexChannelState :=
      { failed_nodes := ch :: st.failed_nodes,
        num_failed_channels := st.num_failed_channels + 1 }
    let fatal := channels_by_tablet.any (fun replicas =>
      decide (ch ∈ replicas) &&
        decide (IndexChannel.live_count replicas st2.failed_nodes < quorum_min num_replicas))
    (st2, fatal)

/-- A freshly opened index channel: no failures yet. -/
def IndexChannel.fresh : IndexChannelState :=
  { failed_nodes := [], num_failed_channels := 0 }

/-- Processes a sequence of channel-failure events, accumulating whether
any of them was reported load-fatal. -/
def IndexChannel.run_failures (channels_by_tablet : List (List Int)) (num_replicas : Nat) :
    List Int → IndexChannelState → IndexChannelState × Bool
  | [], st => (st, false)
  | ch :: rest, st =>
    let p := IndexChannel.handle_failed_node channels_by_tablet num_replicas st ch
    let q := IndexChannel.run_failures channels_by_tablet num_replicas rest p.1
    (q.1, p.2 || q.2)

/-- The index load succeeds iff no failure event was reported fatal. -/
def IndexChannel.load_succeeds (channels_by_tablet : List (List Int)) (num_replicas : Nat)
    (chs : List Int) : Bool :=
  ! (IndexChannel.run_failures channels_by_tablet num_replicas chs IndexChannel.fresh).2

/-- Mathematical ceiling of `num_replicas / 2`, used to state the quorum
threshold exactly as the specification writes it. -/
def ceil_half (num_replicas : Nat) : Nat := (num_replicas + 1) / 2

/-! ## RowBuffer (`tablet_sink.h`, lines 202-258) -/

/-- Result statuses observable from the operations modelled here. -/
inductive Status where
  | OK
  | BufferOff
  | MemLimit
  deriving DecidableEq

/-- A tuple as seen by the buffer: its deep-copied payload occupies
`bytes` bytes of the buffer's memory pool. -/
structure TupleData where
  bytes : Nat
  deriving DecidableEq

/-- State of one `RowBuffer`: the two atomic flags `_off` and
`_consume_err`, the byte accounting of its `MemTracker`
(current consumption and limit), and the pending queue of quadruples
`(IndexChannel, NodeChannel, tablet_id, Tuple)`, the channels identified
by their ids. -/
structure RowBufferState where
  off : Bool
  consume_err : Bool
  bytes_used : Nat
  byte_limit : Nat
  queue : List (Int × Int × Int × TupleData)

/-- `RowBuffer::workable()`: `return !_off && !_consume_err;`. -/
def RowBuffer.workable (st : RowBufferState) : Bool :=
  ! st.off && ! st.consume_err

/-- `RowBuffer::turn_off()`: `_off = true;`. -/
def RowBuffer.turn_off (st : RowBufferState) : RowBufferState :=
  { st with off := true }

/-- Modelled from the spec: `RowBuffer::push(idx, node, tablet_id, tuple)`
(body not under src/).  If `!workable()`, fail `BufferOff`; else
deep-copy the tuple into the pool, failing `MemLimit` when the buffer's
byte tracker would exceed its limit; else block-push the quadruple into
the queue.  On failure the buffer state is unchanged. -/
def RowBuffer.push (st : RowBufferState) (idx node tablet_id : Int) (tuple : TupleData) :
    Status × RowBufferState :=
  if ! RowBuffer.workable st then (Status.BufferOff, st)
  else if st.byte_limit < st.bytes_used + tuple.bytes then (Status.MemLimit, st)
  else (Status.OK,
    { st with bytes_used := st.bytes_used + tuple.bytes,
              queue := st.queue ++ [(idx, node, tablet_id, tuple)] })

/-! ## OlapTableSink (`tablet_sink.h`, lines 262-386) -/

/-- `OlapTableSink::_use_multi_thread()`: `return _buffer_num != 0;`.
`_buffer_num` is a C++ `int` set from the int32 config field
`buffer_num`. -/
def OlapTableSink.use_multi_thread (buffer_num : Int) : Bool :=
  decide (buffer_num ≠ 0)

/-- The row counters of `OlapTableSink` (`_number_input_rows`,
`_number_output_rows`, `_number_filtered_rows`), all zero-initialized. -/
structure SinkCounters where
  number_input_rows : Nat := 0
  number_output_rows : Nat := 0
  number_filtered_rows : Nat := 0
  deriving DecidableEq

/-- Modelled from the spec: `OlapTableSink::_validate_data` (body not
under src/) marks invalid rows in a bitmap and returns the number of
invalid/filtered rows.  A batch is abstracted as the list of its rows'
validation outcomes (`true` = row passes validation). -/
def OlapTableSink.validate_data (batch : List Bool) : Nat :=
  batch.countP (fun v => ! v)

/-- Modelled from the spec: the counter updates of one
`OlapTableSink::send(state, batch)` call (body not under src/).
`input_rows` grows by the batch size, `filtered_rows` by the number of
rows failing validation; only the remaining rows are routed and counted
in `output_rows`.  Filtering is not an error: the call returns OK. -/
def OlapTableSink.send_batch (c : SinkCounters) (batch : List Bool) : SinkCounters × Status :=
  let filtered := OlapTableSink.validate_data batch
  ({ number_input_rows := c.number_input_rows + batch.length,
     number_output_rows := c.number_output_rows + (batch.length - filtered),
     number_filtered_rows := c.number_filtered_rows + filtered },
   Status.OK)

/-- Runs the sink over a whole sequence of input batches, threading the
counters; returns the final counters and the last status. -/
def OlapTableSink.send_all (batches : List (List Bool)) (c : SinkCounters) :
    SinkCounters × Status :=
  match batches with
  | [] => (c, Status.OK)
  | b :: rest => OlapTableSink.send_all rest (OlapTableSink.send_batch c b).1

/-! ## Helper lemmas -/

theorem wrap64_add_left (x y : Int) : wrap64 (wrap64 x + y) = wrap64 (x + y) := by
  unfold wrap64
  omega

theorem wrap64_add_right (x y : Int) : wrap64 (x + wrap64 y) = wrap64 (x + y) := by
  unfold wrap64
  omega

theorem wrap64_eq_self (x : Int) (h : inRange64 x) : wrap64 x = x := by
  unfold wrap64
  unfold inRange64 at h
  omega

theorem tablets_channel_key_eq_iff (a b : TabletsChannelKey) :
    TabletsChannelKey.eq a b = true ↔ a = b := by
  obtain ⟨⟨ah, al⟩, ai⟩ := a
  obtain ⟨⟨bh, bl⟩, bi⟩ := b
  simp [TabletsChannelKey.eq, TabletsChannelKey.mk.injEq, UniqueId.mk.injEq]
  tauto

/-! ## Claim theorems -/

/-- C5: for every RowBuffer state, `workable()` returns true iff the
buffer has not been turned off and no consumer error has occurred:
`workable() = !off && !consume_err`. -/
theorem workable_iff (st : RowBufferState) :
    RowBuffer.workable st = true ↔ st.off = false ∧ st.consume_err = false := by
  unfold RowBuffer.workable
  cases h1 : st.off <;> cases h2 : st.consume_err <;> simp

/-- C8: a freshly constructed NodeChannel has `_rpc_timeout_ms` equal to
60000 (the in-class initializer, used when configuration does not
override it). -/
theorem rpc_timeout_default (index_id node_id schema_hash : Int) :
    (NodeChannel.construct index_id node_id schema_hash).rpc_timeout_ms = 60000 := rfl

/-- C10: `TabletsChannelKey` equality returns true iff the index ids and
the load ids agree; the relation coincides with structural equality of
the `(load_id, index_id)` pair and is reflexive, symmetric, and
transitive. -/
theorem tablets_channel_key_eq_spec (k1 k2 k3 : TabletsChannelKey) :
    (TabletsChannelKey.eq k1 k2 = true ↔ k1.index_id = k2.index_id ∧ k1.id = k2.id) ∧
    (TabletsChannelKey.eq k1 k2 = true ↔ k1 = k2) ∧
    TabletsChannelKey.eq k1 k1 = true ∧
    TabletsChannelKey.eq k1 k2 = TabletsChannelKey.eq k2 k1 ∧
    (TabletsChannelKey.eq k1 k2 = true → TabletsChannelKey.eq k2 k3 = true →
      TabletsChannelKey.eq k1 k3 = true) := by
  refine ⟨?_, tablets_channel_key_eq_iff k1 k2, (tablets_channel_key_eq_iff k1 k1).mpr rfl,
    ?_, fun h1 h2 => (tablets_channel_key_eq_iff k1 k3).mpr
      (((tablets_channel_key_eq_iff k1 k2).mp h1).trans
        ((tablets_channel_key_eq_iff k2 k3).mp h2))⟩
  · rw [tablets_channel_key_eq_iff]
    obtain ⟨⟨ah, al⟩, ai⟩ := k1
    obtain ⟨⟨bh, bl⟩, bi⟩ := k2
    simp [TabletsChannelKey.mk.injEq, UniqueId.mk.injEq]
    tauto
  · rw [Bool.eq_iff_iff, tablets_channel_key_eq_iff, tablets_channel_key_eq_iff]
    exact ⟨Eq.symm, Eq.symm⟩

/-- C10 witness: the equality relation evaluated at a concrete key. -/
theorem tablets_channel_key_eq_spec_witness :
    TabletsChannelKey.eq ⟨⟨1, 2⟩, 3⟩ ⟨⟨1, 2⟩, 3⟩ = true :=
  (tablets_channel_key_eq_spec ⟨⟨1, 2⟩, 3⟩ ⟨⟨1, 2⟩, 3⟩ ⟨⟨1, 2⟩, 3⟩).2.2.2.2
    (by decide) (by decide)

/-- C4 counterexample: the source tests `_buffer_num != 0`, so a negative
configured `buffer_num` (representable in the int32 config field and the
C++ `int` member) activates multi-threaded mode although it is not
strictly greater than 0. -/
theorem use_multi_thread_gt_zero_counterexample :
    OlapTableSink.use_multi_thread (-1) = true ∧ ¬ ((-1 : Int) > 0) := by decide

/-- C4 (amended): multi-threaded mode is active iff `buffer_num ≠ 0`;
for nonnegative configured values this coincides with `buffer_num > 0`,
and `buffer_num = 0` disables it. -/
theorem use_multi_thread_iff (b : Int) :
    (OlapTableSink.use_multi_thread b = true ↔ b ≠ 0) ∧
    (0 ≤ b → (OlapTableSink.use_multi_thread b = true ↔ 0 < b)) ∧
    OlapTableSink.use_multi_thread 0 = false := by
  unfold OlapTableSink.use_multi_thread
  refine ⟨by simp, fun hb => ?_, by decide⟩
  simp only [decide_eq_true_eq]
  omega

/-- C4 witness: a positive buffer count activates multi-threaded mode. -/
theorem use_multi_thread_iff_witness : OlapTableSink.use_multi_thread 4 = true :=
  ((use_multi_thread_iff 4).2.1 (by decide)).mpr (by decide)

/-- C9: `AddBatchCounter` addition adds the three fields componentwise
as 64-bit integers; `operator+` agrees with `operator+=`, the operation
is commutative and associative, and a default-constructed counter is a
two-sided identity on counters whose fields are in the int64 range. -/
theorem add_batch_counter_monoid (a b c : AddBatchCounter) :
    AddBatchCounter.add a b = AddBatchCounter.addAssign a b ∧
    AddBatchCounter.add a b = AddBatchCounter.add b a ∧
    AddBatchCounter.add (AddBatchCounter.add a b) c =
      AddBatchCounter.add a (AddBatchCounter.add b c) ∧
    (AddBatchCounter.InRange a →
      AddBatchCounter.add a AddBatchCounter.zero = a ∧
      AddBatchCounter.add AddBatchCounter.zero a = a) := by
  obtain ⟨a1, a2, a3⟩ := a
  obtain ⟨b1, b2, b3⟩ := b
  obtain ⟨c1, c2, c3⟩ := c
  refine ⟨rfl, ?_, ?_, ?_⟩
  · simp only [AddBatchCounter.add, AddBatchCounter.addAssign, AddBatchCounter.mk.injEq]
    exact ⟨congrArg wrap64 (Int.add_comm _ _), congrArg wrap64 (Int.add_comm _ _),
      congrArg wrap64 (Int.add_comm _ _)⟩
  · simp only [AddBatchCounter.add, AddBatchCounter.addAssign, AddBatchCounter.mk.injEq]
    refine ⟨?_, ?_, ?_⟩ <;> rw [wrap64_add_left, wrap64_add_right, Int.add_assoc]
  · rintro ⟨h1, h2, h3⟩
    constructor <;>
      simp only [AddBatchCounter.add, AddBatchCounter.addAssign, AddBatchCounter.zero,
        AddBatchCounter.mk.injEq, Int.add_zero, Int.zero_add] <;>
      exact ⟨wrap64_eq_self _ h1, wrap64_eq_self _ h2, wrap64_eq_self _ h3⟩

/-- C9 witness: the identity law applied at a concrete in-range
counter. -/
theorem add_batch_counter_monoid_witness :
    AddBatchCounter.add ⟨1, 2, 3⟩ AddBatchCounter.zero = ⟨1, 2, 3⟩ ∧
    AddBatchCounter.add AddBatchCounter.zero ⟨1, 2, 3⟩ = ⟨1, 2, 3⟩ :=
  (add_batch_counter_monoid ⟨1, 2, 3⟩ AddBatchCounter.zero AddBatchCounter.zero).2.2.2
    (by decide)

/-- C3: `RowBuffer::push` fails with `BufferOff` whenever `workable()` is
false — in particular after `turn_off()` — leaving the buffer unchanged;
it fails with `MemLimit` when the deep copy would exceed the buffer's
byte limit; otherwise it enqueues the deep-copied quadruple. -/
theorem push_spec (st : RowBufferState) (idx node tablet_id : Int) (t : TupleData) :
    (RowBuffer.workable st = false →
      RowBuffer.push st idx node tablet_id t = (Status.BufferOff, st)) ∧
    (RowBuffer.workable st = true → st.byte_limit < st.bytes_used + t.bytes →
      RowBuffer.push st idx node tablet_id t = (Status.MemLimit, st)) ∧
    (RowBuffer.workable st = true → st.bytes_used + t.bytes ≤ st.byte_limit →
      RowBuffer.push st idx node tablet_id t =
        (Status.OK,
          { st with bytes_used := st.bytes_used + t.bytes,
                    queue := st.queue ++ [(idx, node, tablet_id, t)] })) ∧
    RowBuffer.push (RowBuffer.turn_off st) idx node tablet_id t =
      (Status.BufferOff, RowBuffer.turn_off st) := by
  refine ⟨fun hw => ?_, fun hw hm => ?_, fun hw hm => ?_, ?_⟩
  · simp [RowBuffer.push, hw]
  · simp [RowBuffer.push, hw, hm]
  · have hnot : ¬ (st.byte_limit < st.bytes_used + t.bytes) := Nat.not_lt.mpr hm
    simp [RowBuffer.push, hw, hnot]
  · simp [RowBuffer.push, RowBuffer.workable, RowBuffer.turn_off]

/-- C3 witness: push on a turned-off buffer fails with `BufferOff`, and
push past the byte limit fails with `MemLimit`. -/
theorem push_spec_witness :
    RowBuffer.push ⟨true, false, 0, 10, []⟩ 1 2 3 ⟨4⟩ =
      (Status.BufferOff, ⟨true, false, 0, 10, []⟩) ∧
    RowBuffer.push ⟨false, false, 8, 10, []⟩ 1 2 3 ⟨4⟩ =
      (Status.MemLimit, ⟨false, false, 8, 10, []⟩) :=
  ⟨(push_spec ⟨true, false, 0, 10, []⟩ 1 2 3 ⟨4⟩).1 (by decide),
   (push_spec ⟨false, false, 8, 10, []⟩ 1 2 3 ⟨4⟩).2.1 (by decide) (by decide)⟩

/-- After `n` full-batch sends the channel has dispatched exactly the
sequence numbers `0, …, n-1`, none with `eos`. -/
theorem run_sends_eq (n : Nat) :
    NodeChannel.run_sends n =
      ⟨n, (List.range n).map (fun i => (i, false))⟩ := by
  induction n with
  | zero => rfl
  | succ n ih =>
    simp [NodeChannel.run_sends, ih, NodeChannel.send_cur_batch, List.range_succ]

/-- C2: `_next_packet_seq` starts at 0 and is incremented by exactly one
per sent batch, so a load of `n` full batches followed by `close` carries
packet sequences `0, 1, …, n` with no gaps and no duplicates, and exactly
the last request (sequence `n`) has `eos = true`. -/
theorem packet_seq_contiguous (n : Nat) (st : NodeChannelSendState) (e : Bool) :
    NodeChannel.fresh.next_packet_seq = 0 ∧
    (NodeChannel.send_cur_batch st e).next_packet_seq = st.next_packet_seq + 1 ∧
    (NodeChannel.run_load n).sent_packets.map Prod.fst = List.range (n + 1) ∧
    ∀ p ∈ (NodeChannel.run_load n).sent_packets, (p.2 = true ↔ p.1 = n) := by
  refine ⟨rfl, rfl, ?_, ?_⟩
  · unfold NodeChannel.run_load
    rw [run_sends_eq]
    simp [NodeChannel.send_cur_batch, List.range_succ, List.map_append, List.map_map,
      Function.comp_def]
  · unfold NodeChannel.run_load
    rw [run_sends_eq]
    intro p hp
    simp only [NodeChannel.send_cur_batch, List.mem_append, List.mem_map,
      List.mem_singleton] at hp
    rcases hp with ⟨i, hi, rfl⟩ | rfl
    · simp only [List.mem_range] at hi
      simp only [Bool.false_eq_true, false_iff]
      omega
    · simp

/-- Running the sink preserves the counter identity
`input = output + filtered` and always reports OK. -/
theorem send_all_invariant (batches : List (List Bool)) (c : SinkCounters)
    (h : c.number_input_rows = c.number_output_rows + c.number_filtered_rows) :
    (OlapTableSink.send_all batches c).1.number_input_rows =
      (OlapTableSink.send_all batches c).1.number_output_rows +
        (OlapTableSink.send_all batches c).1.number_filtered_rows ∧
    (OlapTableSink.send_all batches c).2 = Status.OK := by
  induction batches generalizing c with
  | nil => exact ⟨h, rfl⟩
  | cons b rest ih =>
    simp only [OlapTableSink.send_all]
    apply ih
    have hf : OlapTableSink.validate_data b ≤ b.length := List.countP_le_length (fun v => ! v)
    simp only [OlapTableSink.send_batch]
    omega

/-- C6: over any sequence of input batches the counters satisfy
`input_rows = output_rows + filtered_rows`; rows failing validation are
excluded from routing and counted in `filtered_rows`, and no send ever
returns a failure status because rows were filtered. -/
theorem filter_accounting (batches : List (List Bool)) (c : SinkCounters) (b : List Bool) :
    ((OlapTableSink.send_all batches ⟨0, 0, 0⟩).1.number_input_rows =
      (OlapTableSink.send_all batches ⟨0, 0, 0⟩).1.number_output_rows +
        (OlapTableSink.send_all batches ⟨0, 0, 0⟩).1.number_filtered_rows) ∧
    (OlapTableSink.send_all batches ⟨0, 0, 0⟩).2 = Status.OK ∧
    (OlapTableSink.send_batch c b).1.number_filtered_rows =
      c.number_filtered_rows + OlapTableSink.validate_data b ∧
    (OlapTableSink.send_batch c b).1.number_output_rows =
      c.number_output_rows + (b.length - OlapTableSink.validate_data b) ∧
    (OlapTableSink.send_batch c b).2 = Status.OK := by
  obtain ⟨h1, h2⟩ := send_all_invariant batches ⟨0, 0, 0⟩ rfl
  exact ⟨h1, h2, rfl, rfl, rfl⟩

/-- Failure handling on an already-failed channel is a no-op. -/
theorem handle_failed_node_of_mem (cbt : List (List Int)) (R : Nat)
    (st : IndexChannelState) (ch : Int) (h : ch ∈ st.failed_nodes) :
    IndexChannel.handle_failed_node cbt R st ch = (st, false) := by
  simp [IndexChannel.handle_failed_node, h]

/-- Failure handling on a live channel marks it and bumps the counter. -/
theorem handle_failed_node_of_not_mem (cbt : List (List Int)) (R : Nat)
    (st : IndexChannelState) (ch : Int) (h : ch ∉ st.failed_nodes) :
    (IndexChannel.handle_failed_node cbt R st ch).1 =
      ⟨ch :: st.failed_nodes, st.num_failed_channels + 1⟩ := by
  simp [IndexChannel.handle_failed_node, h]

/-- The fatal verdict on a live channel is the per-tablet quorum check. -/
theorem handle_failed_node_fatal_eq (cbt : List (List Int)) (R : Nat)
    (st : IndexChannelState) (ch : Int) (h : ch ∉ st.failed_nodes) :
    (IndexChannel.handle_failed_node cbt R st ch).2 =
      cbt.any (fun replicas => decide (ch ∈ replicas) &&
        decide (IndexChannel.live_count replicas (ch :: st.failed_nodes) < quorum_min R)) := by
  simp [IndexChannel.handle_failed_node, h]

/-- Marking one more channel failed can only decrease a live count. -/
theorem live_count_cons_le (replicas failed : List Int) (ch : Int) :
    IndexChannel.live_count replicas (ch :: failed) ≤
      IndexChannel.live_count replicas failed := by
  unfold IndexChannel.live_count
  apply List.countP_mono_left
  intro a _ ha
  simp only [decide_eq_true_eq] at ha ⊢
  intro hmem
  exact ha (List.mem_cons_of_mem _ hmem)

/-- Live counts are antitone in the failed set. -/
theorem live_count_append_le (replicas pre failed : List Int) :
    IndexChannel.live_count replicas (pre ++ failed) ≤
      IndexChannel.live_count replicas failed := by
  induction pre with
  | nil => exact Nat.le_refl _
  | cons x pre ih => exact Nat.le_trans (live_count_cons_le replicas (pre ++ failed) x) ih

/-- Failing a channel that hosts no replica of a tablet leaves that
tablet's live count unchanged. -/
theorem live_count_cons_of_not_mem (replicas failed : List Int) (ch : Int)
    (h : ch ∉ replicas) :
    IndexChannel.live_count replicas (ch :: failed) =
      IndexChannel.live_count replicas failed := by
  unfold IndexChannel.live_count
  apply List.countP_congr
  intro a ha
  have hne : a ≠ ch := fun heq => h (heq ▸ ha)
  simp [List.mem_cons, hne]

/-- With no failures every replica is live. -/
theorem live_count_nil (replicas : List Int) :
    IndexChannel.live_count replicas [] = replicas.length := by
  unfold IndexChannel.live_count
  simp

/-- Unfolding equation of `run_failures` on a cons cell. -/
theorem run_failures_cons (cbt : List (List Int)) (R : Nat) (ch : Int) (rest : List Int)
    (st : IndexChannelState) :
    IndexChannel.run_failures cbt R (ch :: rest) st =
      ((IndexChannel.run_failures cbt R rest
          (IndexChannel.handle_failed_node cbt R st ch).1).1,
        (IndexChannel.handle_failed_node cbt R st ch).2 ||
          (IndexChannel.run_failures cbt R rest
            (IndexChannel.handle_failed_node cbt R st ch).1).2) := rfl

/-- One failure event leaves the failed set unchanged or conses the new
channel onto it. -/
theorem handle_failed_node_fst (cbt : List (List Int)) (R : Nat)
    (st : IndexChannelState) (ch : Int) :
    (IndexChannel.handle_failed_node cbt R st ch).1.failed_nodes = st.failed_nodes ∨
    (IndexChannel.handle_failed_node cbt R st ch).1.failed_nodes =
      ch :: st.failed_nodes := by
  by_cases h : ch ∈ st.failed_nodes
  · left
    rw [handle_failed_node_of_mem cbt R st ch h]
  · right
    rw [handle_failed_node_of_not_mem cbt R st ch h]

/-- The failed set after a run of failure events extends the initial
failed set. -/
theorem run_failures_extends (cbt : List (List Int)) (R : Nat) (chs : List Int)
    (st : IndexChannelState) :
    ∃ pre, (IndexChannel.run_failures cbt R chs st).1.failed_nodes =
      pre ++ st.failed_nodes := by
  induction chs generalizing st with
  | nil => exact ⟨[], rfl⟩
  | cons ch rest ih =>
    obtain ⟨pre, hpre⟩ := ih (IndexChannel.handle_failed_node cbt R st ch).1
    rcases handle_failed_node_fst cbt R st ch with heq | heq
    · exact ⟨pre, by rw [run_failures_cons]; rw [hpre, heq]⟩
    · exact ⟨pre ++ [ch], by
        rw [run_failures_cons]
        rw [hpre, heq]
        exact List.append_cons pre ch st.failed_nodes⟩

/-- A tolerated (non-fatal) failure event preserves the quorum invariant
of every tablet. -/
theorem handle_failed_node_preserves_quorum (cbt : List (List Int)) (R : Nat)
    (st : IndexChannelState) (ch : Int)
    (hfatal : (IndexChannel.handle_failed_node cbt R st ch).2 = false)
    (hinv : ∀ replicas ∈ cbt,
      quorum_min R ≤ IndexChannel.live_count replicas st.failed_nodes) :
    ∀ replicas ∈ cbt,
      quorum_min R ≤ IndexChannel.live_count replicas
        (IndexChannel.handle_failed_node cbt R st ch).1.failed_nodes := by
  intro replicas hmem
  by_cases h : ch ∈ st.failed_nodes
  · rw [handle_failed_node_of_mem cbt R st ch h]
    exact hinv replicas hmem
  · rw [handle_failed_node_of_not_mem cbt R st ch h]
    show quorum_min R ≤ IndexChannel.live_count replicas (ch :: st.failed_nodes)
    by_cases hch : ch ∈ replicas
    · rw [handle_failed_node_fatal_eq cbt R st ch h] at hfatal
      rw [List.any_eq_false] at hfatal
      have h2 := hfatal replicas hmem
      simp only [hch, decide_True, Bool.true_and, decide_eq_true_eq] at h2
      exact Nat.le_of_not_lt h2
    · rw [live_count_cons_of_not_mem replicas st.failed_nodes ch hch]
      exact hinv replicas hmem

/-- A fatal failure event exhibits a tablet below quorum. -/
theorem handle_failed_node_fatal_exists (cbt : List (List Int)) (R : Nat)
    (st : IndexChannelState) (ch : Int)
    (hfatal : (IndexChannel.handle_failed_node cbt R st ch).2 = true) :
    ∃ replicas ∈ cbt,
      IndexChannel.live_count replicas
        (IndexChannel.handle_failed_node cbt R st ch).1.failed_nodes <
        quorum_min R := by
  by_cases h : ch ∈ st.failed_nodes
  · rw [handle_failed_node_of_mem cbt R st ch h] at hfatal
    simp at hfatal
  · rw [handle_failed_node_fatal_eq cbt R st ch h] at hfatal
    rw [List.any_eq_true] at hfatal
    obtain ⟨replicas, hmem, hpred⟩ := hfatal
    simp only [Bool.and_eq_true, decide_eq_true_eq] at hpred
    refine ⟨replicas, hmem, ?_⟩
    rw [handle_failed_node_of_not_mem cbt R st ch h]
    exact hpred.2

/-- Main invariant of the failure run: starting from a state where every
tablet holds quorum, the run reports no fatal event iff every tablet
still holds quorum at the end. -/
theorem run_failures_quorum_iff (cbt : List (List Int)) (R : Nat) (chs : List Int)
    (st : IndexChannelState)
    (hinv : ∀ replicas ∈ cbt,
      quorum_min R ≤ IndexChannel.live_count replicas st.failed_nodes) :
    (IndexChannel.run_failures cbt R chs st).2 = false ↔
      ∀ replicas ∈ cbt, quorum_min R ≤ IndexChannel.live_count replicas
        (IndexChannel.run_failures cbt R chs st).1.failed_nodes := by
  induction chs generalizing st with
  | nil => exact ⟨fun _ => hinv, fun _ => rfl⟩
  | cons ch rest ih =>
    rw [run_failures_cons]
    cases hfatal : (IndexChannel.handle_failed_node cbt R st ch).2 with
    | false =>
      have hinv2 := handle_failed_node_preserves_quorum cbt R st ch hfatal hinv
      simpa using ih (IndexChannel.handle_failed_node cbt R st ch).1 hinv2
    | true =>
      obtain ⟨replicas, hmem, hlt⟩ := handle_failed_node_fatal_exists cbt R st ch hfatal
      obtain ⟨pre, hpre⟩ := run_failures_extends cbt R rest
        (IndexChannel.handle_failed_node cbt R st ch).1
      have hle : IndexChannel.live_count replicas
          (IndexChannel.run_failures cbt R rest
            (IndexChannel.handle_failed_node cbt R st ch).1).1.failed_nodes ≤
          IndexChannel.live_count replicas
            (IndexChannel.handle_failed_node cbt R st ch).1.failed_nodes := by
        rw [hpre]
        exact live_count_append_le replicas pre _
      constructor
      · intro habs
        simp at habs
      · intro hall
        exact absurd (hall replicas hmem)
          (Nat.not_le.mpr (Nat.lt_of_le_of_lt hle hlt))

/-- C1 counterexample: with replication factor 3 and one failed replica
channel the modelled load succeeds, although the tablet's live count (2)
is below the threshold `⌈R/2⌉ + 1 = 3` that the claim states; the claim's
own `R = 3` consequence therefore contradicts its ceiling formula. -/
theorem quorum_rule_ceiling_counterexample :
    IndexChannel.load_succeeds [[1, 2, 3]] 3 [1] = true ∧
    IndexChannel.live_count [1, 2, 3]
      (IndexChannel.run_failures [[1, 2, 3]] 3 [1] IndexChannel.fresh).1.failed_nodes <
      ceil_half 3 + 1 := by decide

/-- C1 (amended): when every tablet of the index has exactly `R` replica
channels (`R ≥ 1`), the load succeeds iff every tablet retains at least
`⌊R/2⌋ + 1` (strict majority) live replica channels throughout; since
live counts only decrease, this holds iff it holds of the final failed
set.  In particular for `R = 3` one failed replica is survivable. -/
theorem quorum_rule (cbt : List (List Int)) (R : Nat) (chs : List Int)
    (hR : 0 < R) (hlen : ∀ replicas ∈ cbt, replicas.length = R) :
    IndexChannel.load_succeeds cbt R chs = true ↔
      ∀ replicas ∈ cbt, quorum_min R ≤
        IndexChannel.live_count replicas
          (IndexChannel.run_failures cbt R chs IndexChannel.fresh).1.failed_nodes := by
  have hinv : ∀ replicas ∈ cbt,
      quorum_min R ≤ IndexChannel.live_count replicas IndexChannel.fresh.failed_nodes := by
    intro replicas hmem
    show quorum_min R ≤ IndexChannel.live_count replicas []
    rw [live_count_nil, hlen replicas hmem]
    unfold quorum_min
    omega
  unfold IndexChannel.load_succeeds
  rw [Bool.not_eq_true']
  exact run_failures_quorum_iff cbt R chs IndexChannel.fresh hinv

/-- C1 witness: replication factor 3, one replica channel fails, the load
still succeeds. -/
theorem quorum_rule_witness :
    IndexChannel.load_succeeds [[1, 2, 3]] 3 [1] = true :=
  (quorum_rule [[1, 2, 3]] 3 [1] (by decide) (by decide)).mpr (by decide)

/-- Processing failure events keeps `num_failed_channels` equal to the
number of failed channels, which stay pairwise distinct. -/
theorem run_failures_count_nodup (cbt : List (List Int)) (R : Nat) (chs : List Int)
    (st : IndexChannelState)
    (hc : st.num_failed_channels = st.failed_nodes.length)
    (hn : st.failed_nodes.Nodup) :
    ((IndexChannel.run_failures cbt R chs st).1.num_failed_channels =
      (IndexChannel.run_failures cbt R chs st).1.failed_nodes.length) ∧
    (IndexChannel.run_failures cbt R chs st).1.failed_nodes.Nodup := by
  induction chs generalizing st with
  | nil => exact ⟨hc, hn⟩
  | cons ch rest ih =>
    rw [run_failures_cons]
    apply ih
    · by_cases h : ch ∈ st.failed_nodes
      · rw [handle_failed_node_of_mem cbt R st ch h]
        exact hc
      · rw [handle_failed_node_of_not_mem cbt R st ch h]
        simp [hc]
    · by_cases h : ch ∈ st.failed_nodes
      · rw [handle_failed_node_of_mem cbt R st ch h]
        exact hn
      · rw [handle_failed_node_of_not_mem cbt R st ch h]
        exact List.nodup_cons.mpr ⟨h, hn⟩

/-- C7: `handle_failed_node` is idempotent per channel — a second call on
a channel that is already marked failed returns without re-marking and
leaves the state (hence `num_failed_channels` and every live-replica
count) unchanged — and over any run `num_failed_channels` equals the
number of distinct channels marked failed. -/
theorem handle_failed_node_idempotent (cbt : List (List Int)) (R : Nat)
    (st : IndexChannelState) (ch : Int) (chs : List Int) :
    IndexChannel.handle_failed_node cbt R
        (IndexChannel.handle_failed_node cbt R st ch).1 ch =
      ((IndexChannel.handle_failed_node cbt R st ch).1, false) ∧
    (IndexChannel.run_failures cbt R chs IndexChannel.fresh).1.num_failed_channels =
      (IndexChannel.run_failures cbt R chs IndexChannel.fresh).1.failed_nodes.length ∧
    (IndexChannel.run_failures cbt R chs IndexChannel.fresh).1.failed_nodes.Nodup := by
  refine ⟨?_, ?_, ?_⟩
  · by_cases h : ch ∈ st.failed_nodes
    · rw [handle_failed_node_of_mem cbt R st ch h]
      exact handle_failed_node_of_mem cbt R st ch h
    · rw [handle_failed_node_of_not_mem cbt R st ch h]
      exact handle_failed_node_of_mem cbt R _ ch (List.mem_cons_self ch st.failed_nodes)
  · exact (run_failures_count_nodup cbt R chs IndexChannel.fresh rfl List.nodup_nil).1
  · exact (run_failures_count_nodup cbt R chs IndexChannel.fresh rfl List.nodup_nil).2

end DorisSink
